import Mathlib

/-!
Verification of the two-stage emergency triage pipeline implemented in
`src/emergency_detector.py` (functions `is_emergency_keyword`,
`is_emergency_openai`, and the batch loop in `main`).

The embedding is shallow: Python strings are lists of characters,
Python values inspected by the script are a small inductive type
(`None`, `str`, anything else), the OpenAI call is an environment
record describing whether the client library imports, whether the
API key is configured, and what the transport returns, and the
ArcGIS feature store is a list of features carrying the `ai_flag`
status field.  Character case conversion is modelled at the ASCII
level, matching the vocabulary and labels used by the script.
-/

/-- A Python runtime value, as far as `emergency_detector.py` inspects one:
the script only distinguishes `None`, `str` values and everything else
(via `isinstance(text, str)`).  Strings are modelled as lists of characters. -/
inductive PyValue where
  | null : PyValue
  | str : List Char → PyValue
  | other : PyValue
deriving DecidableEq

/-- Python substring containment, `needle in hay` on strings. -/
def strContains (hay needle : List Char) : Bool := decide (needle <:+: hay)

/-- The apostrophe character, written by code point. -/
def apostrophe : Char := Char.ofNat 39

/-- The fixed vocabulary of `is_emergency_keyword`, in source order.
The fifth entry spells the contraction of "can not" followed by "breathe". -/
def emergency_words : List (List Char) :=
  ["trapped".data, "unconscious".data, "fire".data, "injured".data,
   "can".data ++ [apostrophe] ++ "t breathe".data,
   "emergency".data, "urgent".data, "help".data, "attack".data, "bleeding".data]

/-- Embedding of `is_emergency_keyword`: reject non-strings, lower-case the
text, and test each vocabulary word for substring containment. -/
def is_emergency_keyword : PyValue → Bool
  | PyValue.str s => emergency_words.any (fun w => strContains (s.map Char.toLower) w)
  | _ => false

/-- Whitespace splitter used only to state the implicit no-word-boundary
property: the lower-cased text cut at space characters. -/
def tokensSplit : List Char → List Char → List (List Char)
  | [], acc => [acc.reverse]
  | c :: rest, acc =>
    if c = ' ' then acc.reverse :: tokensSplit rest []
    else tokensSplit rest (c :: acc)

/-- The whitespace-delimited tokens of a lower-cased text. -/
def tokensOf (s : List Char) : List (List Char) :=
  (tokensSplit (s.map Char.toLower) []).filter (fun w => !w.isEmpty)

theorem strContains_iff (hay needle : List Char) :
    strContains hay needle = true ↔ needle <:+: hay := by
  simp [strContains]

theorem is_emergency_keyword_str_iff (t : List Char) :
    is_emergency_keyword (PyValue.str t) = true ↔
      ∃ w ∈ emergency_words, w <:+: t.map Char.toLower := by
  simp [is_emergency_keyword, List.any_eq_true, strContains_iff]

theorem map_isInfix (f : Char → Char) {u t : List Char} (h : u <:+: t) :
    u.map f <:+: t.map f := by
  obtain ⟨s, r, rfl⟩ := h
  exact ⟨s.map f, r.map f, by simp⟩

theorem exists_infix_preimage_of_map (f : Char → Char) {w t : List Char}
    (h : w <:+: t.map f) : ∃ u, u <:+: t ∧ u.map f = w := by
  obtain ⟨s, r, hsr⟩ := h
  have h1 : t.map f = s ++ (w ++ r) := by rw [← hsr]; simp
  obtain ⟨t₁, t₂, rfl, h₁, h₂⟩ := List.map_eq_append_iff.mp h1
  obtain ⟨t₃, t₄, rfl, h₃, h₄⟩ := List.map_eq_append_iff.mp h₂
  exact ⟨t₃, ⟨t₁, t₄, by simp⟩, h₃⟩

/-- Claim C3: for every input value that is not a string (including `None`),
`is_emergency_keyword` returns `false`; the function is total, so no
exception is raised. -/
theorem keyword_nonstring_false (v : PyValue) (h : ∀ s, v ≠ PyValue.str s) :
    is_emergency_keyword v = false := by
  cases v with
  | null => rfl
  | str s => exact absurd rfl (h s)
  | other => rfl

theorem keyword_nonstring_false_witness :
    is_emergency_keyword PyValue.null = false :=
  keyword_nonstring_false PyValue.null (fun _ h => PyValue.noConfusion h)

/-- Claim C4: `is_emergency_keyword` returns `true` on a string exactly when
some occurrence of a vocabulary word, in any letter case, appears as a
substring of the text: the occurrences are the infixes of the original text
whose lower-casing is a vocabulary word. -/
theorem keyword_case_insensitive_substring (t : List Char) :
    is_emergency_keyword (PyValue.str t) = true ↔
      ∃ w ∈ emergency_words, ∃ u, u <:+: t ∧ u.map Char.toLower = w := by
  rw [is_emergency_keyword_str_iff]
  constructor
  · rintro ⟨w, hw, hinf⟩
    obtain ⟨u, hu, hum⟩ := exists_infix_preimage_of_map Char.toLower hinf
    exact ⟨w, hw, u, hu, hum⟩
  · rintro ⟨w, hw, u, hu, hum⟩
    exact ⟨w, hw, hum ▸ map_isInfix Char.toLower hu⟩

theorem keyword_case_insensitive_substring_witness :
    is_emergency_keyword (PyValue.str "FIRE".data) = true :=
  (keyword_case_insensitive_substring "FIRE".data).mpr
    ⟨"fire".data, by decide, "FIRE".data, List.infix_refl _, by decide⟩

/-- The characters Python `str.strip()` removes: the whitespace code points
the script can meet, written by code point (tab, newline, vertical tab,
form feed, carriage return, the separator controls, space, next line,
no-break space). -/
def pyWhitespace : List Char :=
  [Char.ofNat 9, Char.ofNat 10, Char.ofNat 11, Char.ofNat 12, Char.ofNat 13,
   Char.ofNat 28, Char.ofNat 29, Char.ofNat 30, Char.ofNat 31, ' ',
   Char.ofNat 133, Char.ofNat 160]

/-- Whether a character counts as whitespace for Python `str.strip()`. -/
def pyIsSpace (c : Char) : Bool := pyWhitespace.contains c

/-- Python `text.strip()`: remove leading and trailing whitespace. -/
def pyStrip (s : List Char) : List Char :=
  ((s.dropWhile pyIsSpace).reverse.dropWhile pyIsSpace).reverse

/-- The environment of one `is_emergency_openai` call: whether the `openai`
library imports, the value of the `OPENAI_API_KEY` environment variable
(`none` when unset), and what the chat-completion request would yield
(`Except.error` for a raised exception — transport failure or a malformed
response object — `Except.ok` for the returned message content). -/
structure OpenAIEnv where
  openai_importable : Bool
  api_key : Option (List Char)
  api_response : Except (List Char) (List Char)

/-- Python truthiness of `os.getenv("OPENAI_API_KEY")`: set and non-empty. -/
def truthyKey : Option (List Char) → Bool
  | none => false
  | some k => !k.isEmpty

/-- The label-to-boolean mapping of `is_emergency_openai`:
`"EMERGENCY" in response.choices[0].message.content.strip().upper()`. -/
def openaiLabelToBool (content : List Char) : Bool :=
  strContains ((pyStrip content).map Char.toUpper) "EMERGENCY".data

/-- Embedding of `is_emergency_openai`.  First component: the boolean the
function returns (every failure path returns `False` inside the function).
Second component: whether an external inference request was issued. -/
def is_emergency_openai (env : OpenAIEnv) : PyValue → Bool × Bool
  | PyValue.str s =>
    if (pyStrip s).isEmpty then (false, false)
    else if !env.openai_importable then (false, false)
    else if !truthyKey env.api_key then (false, false)
    else
      match env.api_response with
      | Except.error _ => (false, true)
      | Except.ok content => (openaiLabelToBool content, true)
  | _ => (false, false)

/-- The label written back to the store: `"911_REVIEW" if is_emergency else "OK"`. -/
def flagOf (b : Bool) : List Char :=
  if b then "911_REVIEW".data else "OK".data

/-- The per-record pipeline of `main`, step 5: the keyword stage first, the
semantic stage only when it returns `false`.  First component: the decided
`is_emergency`.  Second component: how many external inference calls were
issued for the record. -/
def processText (env : OpenAIEnv) (v : PyValue) : Bool × Nat :=
  if is_emergency_keyword v then (true, 0)
  else
    let r := is_emergency_openai env v
    (r.1, if r.2 then 1 else 0)

/-- Claim C10: the keyword match uses no word boundaries: texts whose
whitespace-delimited tokens include no vocabulary word are still flagged
when a vocabulary word occurs embedded inside a longer word
("helpful" contains "help", "wildfire" contains "fire"). -/
theorem keyword_matches_embedded_words :
    is_emergency_keyword (PyValue.str "That was helpful".data) = true ∧
    is_emergency_keyword (PyValue.str "A wildfire started".data) = true ∧
    (∀ w ∈ emergency_words, w ∉ tokensOf "That was helpful".data) ∧
    (∀ w ∈ emergency_words, w ∉ tokensOf "A wildfire started".data) := by
  decide

theorem pyStrip_eq_nil_of_all_space {s : List Char} (h : ∀ c ∈ s, pyIsSpace c = true) :
    pyStrip s = [] := by
  have h1 : s.dropWhile pyIsSpace = [] := List.dropWhile_eq_nil_iff.mpr h
  simp [pyStrip, h1]

/-- Claim C6: on `None`, any non-string, the empty string, or a string of
only whitespace, `is_emergency_openai` returns `false` and issues no
external inference call, whatever the environment holds. -/
theorem semantic_short_circuit (env : OpenAIEnv) (v : PyValue)
    (h : (∀ s, v ≠ PyValue.str s) ∨
         ∃ s, v = PyValue.str s ∧ ∀ c ∈ s, pyIsSpace c = true) :
    is_emergency_openai env v = (false, false) := by
  cases v with
  | null => rfl
  | other => rfl
  | str s =>
    rcases h with h | ⟨s₂, hs₂, hsp⟩
    · exact absurd rfl (h s)
    · injection hs₂ with he
      subst he
      have hnil : pyStrip s = [] := pyStrip_eq_nil_of_all_space hsp
      simp [is_emergency_openai, hnil]

theorem semantic_short_circuit_witness :
    is_emergency_openai ⟨true, some "key".data, Except.ok "EMERGENCY".data⟩
      (PyValue.str "   ".data) = (false, false) :=
  semantic_short_circuit _ _ (Or.inr ⟨"   ".data, rfl, by decide⟩)

/-- Claim C5: when the keyword stage returns `true` the pipeline decides
`is_emergency = true` at the keyword stage and issues no external inference
call at all: the semantic stage is never invoked for that record. -/
theorem keyword_short_circuit (env : OpenAIEnv) (v : PyValue)
    (h : is_emergency_keyword v = true) :
    processText env v = (true, 0) := by
  simp [processText, h]

theorem keyword_short_circuit_witness :
    processText ⟨true, some "key".data, Except.ok "OK".data⟩
      (PyValue.str "My house is on fire! Help!".data) = (true, 0) :=
  keyword_short_circuit _ _ (by decide)

/-- Claim C1, counterexample to the flag part: on a text the keyword stage
rejects, a transport failure of the semantic call and a genuine negative
classification produce identical observable results for the caller — the
same returned boolean (and even the same call-was-issued bit) — so no
distinct `semantic_call_failed` flag is surfaced. -/
theorem semantic_failure_indistinguishable :
    is_emergency_keyword (PyValue.str "power outage".data) = false ∧
    is_emergency_openai ⟨true, some "key".data, Except.error "timeout".data⟩
        (PyValue.str "power outage".data) =
      is_emergency_openai ⟨true, some "key".data, Except.ok "OK".data⟩
        (PyValue.str "power outage".data) ∧
    (is_emergency_openai ⟨true, some "key".data, Except.error "timeout".data⟩
        (PyValue.str "power outage".data)).1 = false := by
  decide

/-- Claim C1, amended: when the keyword stage returns `false` and the
semantic stage fails (library missing, credential unset or empty, or the
external call raises), the pipeline decides `false` and writes label
`"OK"`, and no error escapes; the failure is only printed, never surfaced
to the caller as a distinct flag. -/
theorem semantic_failure_degrades_to_ok (env : OpenAIEnv) (v : PyValue)
    (hkw : is_emergency_keyword v = false)
    (hfail : env.openai_importable = false ∨ env.api_key = none ∨
             env.api_key = some [] ∨ ∃ e, env.api_response = Except.error e) :
    (processText env v).1 = false ∧ flagOf (processText env v).1 = "OK".data := by
  have hsem : (is_emergency_openai env v).1 = false := by
    cases v with
    | null => rfl
    | other => rfl
    | str s =>
      by_cases h1 : (pyStrip s).isEmpty
      · simp [is_emergency_openai, h1]
      · rcases hfail with hf | hf | hf | ⟨e, hf⟩
        · simp [is_emergency_openai, h1, hf]
        · simp [is_emergency_openai, h1, hf, truthyKey]
        · simp [is_emergency_openai, h1, hf, truthyKey]
        · by_cases h2 : env.openai_importable
          · by_cases h3 : truthyKey env.api_key
            · simp [is_emergency_openai, h1, h2, h3, hf]
            · simp [is_emergency_openai, h1, h3]
          · simp [is_emergency_openai, h1, h2]
  have hmain : (processText env v).1 = false := by
    simp [processText, hkw, hsem]
  exact ⟨hmain, by rw [hmain]; rfl⟩

theorem semantic_failure_degrades_to_ok_witness :
    (processText ⟨true, none, Except.ok "EMERGENCY".data⟩
        (PyValue.str "when will power return".data)).1 = false ∧
    flagOf (processText ⟨true, none, Except.ok "EMERGENCY".data⟩
        (PyValue.str "when will power return".data)).1 = "OK".data :=
  semantic_failure_degrades_to_ok _ _ (by decide) (Or.inr (Or.inl rfl))

theorem pyStrip_isInfix (l : List Char) : pyStrip l <:+: l := by
  have h1 : l.dropWhile pyIsSpace <:+ l := List.dropWhile_suffix pyIsSpace
  obtain ⟨r, hr⟩ :=
    List.dropWhile_suffix (l := (l.dropWhile pyIsSpace).reverse) pyIsSpace
  have hpre : pyStrip l <+: l.dropWhile pyIsSpace := by
    refine ⟨r.reverse, ?_⟩
    have h2 := congrArg List.reverse hr
    simpa [pyStrip] using h2
  exact hpre.isInfix.trans h1.isInfix

theorem isInfix_dropWhile_of_head {p : Char → Bool} {c : Char} {u l : List Char}
    (hc : p c = false) (h : (c :: u) <:+: l) : (c :: u) <:+: l.dropWhile p := by
  obtain ⟨s, t, rfl⟩ := h
  induction s with
  | nil =>
    have hd : List.dropWhile p ([] ++ (c :: u) ++ t) = (c :: u) ++ t := by
      simp [List.dropWhile_cons, hc]
    rw [hd]
    exact ⟨[], t, by simp⟩
  | cons a s ih =>
    by_cases ha : p a = true
    · have hd : List.dropWhile p ((a :: s) ++ (c :: u) ++ t) =
          List.dropWhile p (s ++ (c :: u) ++ t) := by
        simp [List.dropWhile_cons, ha]
      rw [hd]
      exact ih
    · have hd : List.dropWhile p ((a :: s) ++ (c :: u) ++ t) =
          (a :: s) ++ (c :: u) ++ t := by
        simp [List.dropWhile_cons, ha]
      rw [hd]
      exact ⟨a :: s, t, rfl⟩

theorem isInfix_pyStrip_of_no_space {u l : List Char}
    (hne : u ≠ []) (hu : ∀ c ∈ u, pyIsSpace c = false) (h : u <:+: l) :
    u <:+: pyStrip l := by
  obtain ⟨c, u2, rfl⟩ := List.exists_cons_of_ne_nil hne
  have h1 : (c :: u2) <:+: l.dropWhile pyIsSpace :=
    isInfix_dropWhile_of_head (hu c (by simp)) h
  have h2 : (c :: u2).reverse <:+: (l.dropWhile pyIsSpace).reverse := by
    obtain ⟨s, t, hst⟩ := h1
    refine ⟨t.reverse, s.reverse, ?_⟩
    have h3 := congrArg List.reverse hst
    simpa using h3
  obtain ⟨d, v, hdv⟩ :=
    List.exists_cons_of_ne_nil (by simp : (c :: u2).reverse ≠ [])
  have hd : pyIsSpace d = false := by
    have hdmem : d ∈ (c :: u2).reverse := by rw [hdv]; exact List.mem_cons_self _ _
    exact hu d (List.mem_reverse.mp hdmem)
  have h3 : (c :: u2).reverse <:+:
      ((l.dropWhile pyIsSpace).reverse).dropWhile pyIsSpace := by
    rw [hdv] at h2 ⊢
    exact isInfix_dropWhile_of_head hd h2
  obtain ⟨s, t, hst⟩ := h3
  refine ⟨t.reverse, s.reverse, ?_⟩
  have h4 := congrArg List.reverse hst
  simpa [pyStrip] using h4

theorem toUpper_eq_self_of_space {c : Char} (h : pyIsSpace c = true) :
    Char.toUpper c = c := by
  have hmem : c ∈ pyWhitespace := by simpa [pyIsSpace] using h
  fin_cases hmem <;> rfl

theorem space_not_mem_marker {c : Char} (hs : pyIsSpace c = true)
    (hm : Char.toUpper c ∈ "EMERGENCY".data) : False := by
  have hmem : c ∈ pyWhitespace := by simpa [pyIsSpace] using hs
  rw [toUpper_eq_self_of_space hs] at hm
  revert hm
  fin_cases hmem <;> decide

theorem openaiLabelToBool_iff (resp : List Char) :
    openaiLabelToBool resp = true ↔
      ∃ u, u <:+: resp ∧ u.map Char.toUpper = "EMERGENCY".data := by
  rw [openaiLabelToBool, strContains_iff]
  constructor
  · intro h
    obtain ⟨u, hu, hum⟩ := exists_infix_preimage_of_map Char.toUpper h
    exact ⟨u, hu.trans (pyStrip_isInfix resp), hum⟩
  · rintro ⟨u, hu, hum⟩
    have hne : u ≠ [] := by
      intro h0; rw [h0] at hum; exact absurd hum (by decide)
    have hus : ∀ c ∈ u, pyIsSpace c = false := by
      intro c hc
      by_contra hcs
      simp only [Bool.not_eq_false] at hcs
      exact space_not_mem_marker hcs (hum ▸ List.mem_map_of_mem Char.toUpper hc)
    have h1 : u <:+: pyStrip resp := isInfix_pyStrip_of_no_space hne hus hu
    exact hum ▸ map_isInfix Char.toUpper h1

/-- Claim C7: the pipeline writes label `"911_REVIEW"` exactly when the
decided `is_emergency` is `true` and `"OK"` exactly when it is `false`; and
the semantic stage maps a returned label to `true` exactly when the label
contains the emergency marker (in any letter case), else `false`. -/
theorem flag_and_label_mapping (b : Bool) (resp : List Char) :
    (flagOf b = "911_REVIEW".data ↔ b = true) ∧
    (flagOf b = "OK".data ↔ b = false) ∧
    (openaiLabelToBool resp = true ↔
      ∃ u, u <:+: resp ∧ u.map Char.toUpper = "EMERGENCY".data) := by
  refine ⟨?_, ?_, openaiLabelToBool_iff resp⟩
  · cases b <;> simp [flagOf]
  · cases b <;> simp [flagOf]

theorem flag_and_label_mapping_witness :
    flagOf true = "911_REVIEW".data ∧
    openaiLabelToBool " emergency now".data = true := by
  constructor
  · exact (flag_and_label_mapping true []).1.mpr rfl
  · exact (flag_and_label_mapping true " emergency now".data).2.2.mpr
      ⟨"emergency".data, by decide, by decide⟩

/-- One per-record result of `layer.edit_features(updates=...)`: the store
reports the record identifier, whether the write succeeded, and an error
object for failures. -/
structure UpdateResult where
  objectId : Int
  success : Bool
  error : Option (List Char)
deriving DecidableEq

/-- The error report `main`, step 6, builds from the batch-write response:
the comprehension keeping `r.get("error")` of every result whose
`success` is not set. -/
def update_errors (updateResults : List UpdateResult) : List (Option (List Char)) :=
  (updateResults.filter (fun r => !r.success)).map (fun r => r.error)

/-- A batch-write response with one failure among two records. -/
def writeResultsA : List UpdateResult :=
  [⟨1, true, none⟩, ⟨2, false, some "err".data⟩]

/-- A batch-write response with the same failure reason, but a different
failed identifier and a different success count. -/
def writeResultsB : List UpdateResult :=
  [⟨1, true, none⟩, ⟨3, true, none⟩, ⟨4, false, some "err".data⟩]

/-- Claim C2, counterexample: two batch responses with different success
counts and different failed record identifiers produce the same error
report, so the partitioned report the code builds contains neither the
success count nor the failed record identifiers. -/
theorem report_lacks_counts_and_ids :
    update_errors writeResultsA = update_errors writeResultsB ∧
    (writeResultsA.filter (fun r => r.success)).length ≠
      (writeResultsB.filter (fun r => r.success)).length ∧
    (writeResultsA.filter (fun r => !r.success)).map (fun r => r.objectId) ≠
      (writeResultsB.filter (fun r => !r.success)).map (fun r => r.objectId) := by
  decide

/-- Claim C2, amended: the report `main` builds is the list of
store-reported error reasons of exactly the failed writes: every failed
record's reason appears in it, and its length is the failure count; the
success count and the failed identifiers are not part of it. -/
theorem update_errors_reports_failures (updateResults : List UpdateResult)
    (r : UpdateResult) (hr : r ∈ updateResults) (hf : r.success = false) :
    r.error ∈ update_errors updateResults ∧
    (update_errors updateResults).length =
      (updateResults.filter (fun x => !x.success)).length := by
  constructor
  · exact List.mem_map_of_mem _ (List.mem_filter.mpr ⟨hr, by simp [hf]⟩)
  · simp [update_errors]

theorem update_errors_reports_failures_witness :
    some "err".data ∈ update_errors writeResultsA ∧
    (update_errors writeResultsA).length =
      (writeResultsA.filter (fun x => !x.success)).length :=
  update_errors_reports_failures writeResultsA ⟨2, false, some "err".data⟩
    (by decide) rfl

/-- A feature row as the script reads it: the identifier, the notes field,
and the flag field (the status this system owns). -/
structure Feature where
  objectid : Int
  notes : PyValue
  ai_flag : PyValue
deriving DecidableEq

/-- The query filter of `main`, step 4: `ai_flag IS NULL OR ai_flag = ''`. -/
def isUnprocessed (f : Feature) : Bool :=
  match f.ai_flag with
  | PyValue.null => true
  | PyValue.str s => s.isEmpty
  | _ => false

/-- What one orchestration pass observably does: how many records were
classified, how many external inference calls were issued, which updates
were submitted, and whether the pass exited early with nothing to do. -/
structure RunOutcome where
  classifications : Nat
  semanticCalls : Nat
  updates : List (Int × List Char)
  nothingToDo : Bool
deriving DecidableEq

/-- Steps 4 to 6 of `main`: query the unprocessed records; when the result
is empty, exit cleanly with nothing to do; otherwise classify each record
and submit one batch of flag updates. -/
def main_run (env : OpenAIEnv) (store : List Feature) : RunOutcome :=
  let todo := store.filter isUnprocessed
  if todo.isEmpty then ⟨0, 0, [], true⟩
  else
    ⟨todo.length,
     (todo.map (fun f => (processText env f.notes).2)).sum,
     todo.map (fun f => (f.objectid, flagOf (processText env f.notes).1)),
     false⟩

/-- The store after the batch write: each feature whose identifier carries
an update receives that flag; every other feature is untouched. -/
def applyUpdates (store : List Feature) (updates : List (Int × List Char)) :
    List Feature :=
  store.map (fun f =>
    match updates.find? (fun u => u.1 == f.objectid) with
    | some u => { f with ai_flag := PyValue.str u.2 }
    | none => f)

/-- Claim C8: on a store in which every record is already terminal, a run
classifies nothing, issues no semantic call, submits no update, and exits
cleanly reporting nothing to do; applying its (empty) batch leaves the
store unchanged, so re-running changes nothing. -/
theorem run_idempotent_when_all_terminal (env : OpenAIEnv) (store : List Feature)
    (h : ∀ f ∈ store, isUnprocessed f = false) :
    main_run env store = ⟨0, 0, [], true⟩ ∧
    applyUpdates store (main_run env store).updates = store := by
  have hfilter : store.filter isUnprocessed = [] := by
    rw [List.filter_eq_nil_iff]
    intro a ha
    simp [h a ha]
  constructor
  · simp [main_run, hfilter]
  · simp [main_run, hfilter, applyUpdates, List.find?]

theorem run_idempotent_when_all_terminal_witness :
    main_run ⟨true, some "key".data, Except.ok "OK".data⟩
        [⟨1, PyValue.str "note".data, PyValue.str "OK".data⟩] = ⟨0, 0, [], true⟩ ∧
    applyUpdates [⟨1, PyValue.str "note".data, PyValue.str "OK".data⟩]
        (main_run ⟨true, some "key".data, Except.ok "OK".data⟩
          [⟨1, PyValue.str "note".data, PyValue.str "OK".data⟩]).updates =
      [⟨1, PyValue.str "note".data, PyValue.str "OK".data⟩] :=
  run_idempotent_when_all_terminal _ _ (by decide)

/-- The state of the step-5 loop: the untouched store, the fetched records
still to classify, and the local batch of updates built so far. -/
structure LoopState where
  store : List Feature
  pending : List Feature
  updates : List (Int × List Char)

/-- The loop state right after the query: nothing classified yet. -/
def initLoopState (store : List Feature) : LoopState :=
  ⟨store, store.filter isUnprocessed, []⟩

/-- One iteration of the loop: classify the next fetched record and append
its flag to the local batch; the store itself is untouched. -/
def loopStep (env : OpenAIEnv) : LoopState → LoopState
  | ⟨store, [], ups⟩ => ⟨store, [], ups⟩
  | ⟨store, f :: rest, ups⟩ =>
      ⟨store, rest, ups ++ [(f.objectid, flagOf (processText env f.notes).1)]⟩

theorem loopStep_store_eq (env : OpenAIEnv) (s : LoopState) :
    (loopStep env s).store = s.store := by
  rcases s with ⟨st, pending, ups⟩
  cases pending <;> rfl

theorem loopRun_eq (env : OpenAIEnv) :
    ∀ (pending st : List Feature) (ups : List (Int × List Char)),
    (loopStep env)^[pending.length] ⟨st, pending, ups⟩ =
      ⟨st, [],
       ups ++ pending.map (fun f => (f.objectid, flagOf (processText env f.notes).1))⟩
  | [], st, ups => by simp
  | f :: rest, st, ups => by
    rw [List.length_cons, Function.iterate_succ_apply]
    have h1 : loopStep env ⟨st, f :: rest, ups⟩ =
        ⟨st, rest, ups ++ [(f.objectid, flagOf (processText env f.notes).1)]⟩ := rfl
    rw [h1, loopRun_eq env rest st _]
    simp

/-- Claim C9: during a run the store is mutated only at the final batch
write: after any number of loop iterations (any prefix of the
classification loop, including an abort between records) the store inside
the loop state is the original store, labels having been assigned only to
the local batch, which at loop end is exactly the batch the run submits. -/
theorem store_unchanged_before_commit (env : OpenAIEnv) (store : List Feature)
    (k : Nat) :
    ((loopStep env)^[k] (initLoopState store)).store = store ∧
    ((loopStep env)^[(store.filter isUnprocessed).length]
        (initLoopState store)).updates = (main_run env store).updates := by
  constructor
  · induction k with
    | zero => rfl
    | succ n ih => rw [Function.iterate_succ_apply', loopStep_store_eq]; exact ih
  · simp only [initLoopState]
    rw [loopRun_eq]
    cases hfe : store.filter isUnprocessed with
    | nil => simp [main_run, hfe]
    | cons a rest => simp [main_run, hfe]
